import Mathlib

/-!
Shallow embedding of the RequestBall trajectory engine
(src/src/requestball.cpp) and verification of its specification.

Float arithmetic is idealised as real arithmetic; the single place where
IEEE semantics matter observably (division by a zero `total_distance` in
`getProgress`) is made explicit with `Option`.
-/

/-- A 2D vector (glm::vec2). -/
structure Vec2 where
  x : ℝ
  y : ℝ

/-- Read-only global configuration: display dimensions and
`settings.pitch_speed`. -/
structure Config where
  width : ℝ
  height : ℝ
  pitch_speed : ℝ

/-- Componentwise subtraction `a - b` of glm vectors. -/
def vsub (a b : Vec2) : Vec2 := ⟨a.x - b.x, a.y - b.y⟩

/-- Euclidean length (glm::length). -/
noncomputable def vlength (v : Vec2) : ℝ := Real.sqrt (v.x ^ 2 + v.y ^ 2)

/-- glm::normalize. -/
noncomputable def vnormalize (v : Vec2) : Vec2 :=
  ⟨v.x / vlength v, v.y / vlength v⟩

/-- State of one RequestBall instance (the trajectory engine fields that the
motion core reads or writes). -/
structure RequestBall where
  pos : Vec2
  dest : Vec2
  dir : Vec2
  has_bounced : Bool
  no_bounce : Bool
  distance_travelled : ℝ
  total_distance : ℝ
  points : List Vec2
  line_lengths : List ℝ
  offset : Vec2

/-- RequestBall::addPoint: appends `p`, records the segment length from the
previous last waypoint, and accumulates it into `total_distance`. -/
noncomputable def addPoint (b : RequestBall) (p : Vec2) : RequestBall :=
  let line_length := vlength (vsub (b.points.getLastD ⟨0, 0⟩) p)
  { b with
    total_distance := b.total_distance + line_length
    points := b.points ++ [p]
    line_lengths := b.line_lengths ++ [line_length] }

/-- RequestBall::RequestBall: `dir = normalize(dest - pos)`,
`size = max 5 (log bytes + 1)`, `no_bounce = !successful`, path seeded with
`pos` then `addPoint dest`, `offset` is half the size in each axis. -/
noncomputable def mkRequestBall (response_size : ℝ) (successful : Bool)
    (pos dest : Vec2) : RequestBall :=
  let dir := vnormalize (vsub dest pos)
  let size0 := Real.log response_size + 1
  let size := if size0 < 5 then (5 : ℝ) else size0
  let halfsize := size * (1 / 2)
  addPoint
    { pos := pos
      dest := dest
      dir := dir
      has_bounced := false
      no_bounce := !successful
      distance_travelled := 0
      total_distance := 0
      points := [pos]
      line_lengths := []
      offset := ⟨halfsize, halfsize⟩ } dest

/-- Direction after the start of RequestBall::project: the x component is
negated unless this is a no-bounce (terminal) event. -/
def projectDir (b : RequestBall) : Vec2 :=
  if b.no_bounce = true then b.dir else ⟨-b.dir.x, b.dir.y⟩

/-- The far target x of RequestBall::project: the right display edge for a
no-bounce event, the left edge (0) otherwise. -/
def projectTargetX (cfg : Config) (b : RequestBall) : ℝ :=
  if b.no_bounce = true then cfg.width else 0

/-- The slope `t = dir.y / dir.x` used in RequestBall::project (computed
after the conditional negation of `dir.x`). -/
noncomputable def projectSlope (b : RequestBall) : ℝ :=
  (projectDir b).y / (projectDir b).x

/-- The straight extrapolation `y = pos.y + t * (target.x - pos.x)` in
RequestBall::project. -/
noncomputable def projectExitY (cfg : Config) (b : RequestBall) : ℝ :=
  b.pos.y + projectSlope b * (projectTargetX cfg b - b.pos.x)

/-- The value `intersect_y = y <= offset.y ? offset.y : display.height-offset.y`
in RequestBall::project. -/
noncomputable def projectIntersectY (cfg : Config) (b : RequestBall) : ℝ :=
  if projectExitY cfg b ≤ b.offset.y then b.offset.y else cfg.height - b.offset.y

/-- The value `x = pos.x + (o / t)` with `o = intersect_y - pos.y` in
RequestBall::project. -/
noncomputable def projectIntersectX (cfg : Config) (b : RequestBall) : ℝ :=
  b.pos.x + (projectIntersectY cfg b - b.pos.y) / projectSlope b

/-- The y-coordinate of the final waypoint in the reflecting branch of
RequestBall::project: continuation from the bounce point with the slope of
the locally y-reflected direction `bounce_dir`. -/
noncomputable def projectExitY2 (cfg : Config) (b : RequestBall) : ℝ :=
  projectIntersectY cfg b +
    -(projectDir b).y / (projectDir b).x *
      (projectTargetX cfg b - projectIntersectX cfg b)

/-- RequestBall::project: resets the distance counters, conditionally negates
`dir.x`, restarts the path at the current position and appends either the
direct exit waypoint or a bounce waypoint followed by the exit waypoint.
Only a local copy of the direction has its y component reflected. -/
noncomputable def project (cfg : Config) (b : RequestBall) : RequestBall :=
  let b1 : RequestBall :=
    { b with
      distance_travelled := 0
      total_distance := 0
      dir := projectDir b
      points := [b.pos]
      line_lengths := [] }
  if projectExitY cfg b < b.offset.y ∨ projectExitY cfg b > cfg.height - b.offset.y then
    addPoint (addPoint b1 ⟨projectIntersectX cfg b, projectIntersectY cfg b⟩)
      ⟨projectTargetX cfg b, projectExitY2 cfg b⟩
  else
    addPoint b1 ⟨projectTargetX cfg b, projectExitY cfg b⟩

/-- RequestBall::bounce: no-op when already bounced, otherwise project and
set `has_bounced`. -/
noncomputable def bounce (cfg : Config) (b : RequestBall) : RequestBall :=
  if b.has_bounced = true then b
  else { project cfg b with has_bounced := true }

/-- RequestBall::changeDestX: no-op after the bounce; a request behind or at
the current x triggers the bounce; otherwise the path is rebuilt as
`points[0]` followed by the re-targeted destination computed with slope
`dir.y / dir.x`. `distance_travelled` is not touched by the rebuild. -/
noncomputable def changeDestX (cfg : Config) (b : RequestBall) (dest_x : ℝ) :
    RequestBall :=
  if b.has_bounced = true then b
  else if dest_x ≤ b.pos.x then bounce cfg b
  else
    let t := b.dir.y / b.dir.x
    let start := b.points.getD 0 ⟨0, 0⟩
    let d2 : Vec2 := ⟨dest_x, start.y + t * (dest_x - start.x)⟩
    addPoint
      { b with
        dest := d2
        total_distance := 0
        line_lengths := []
        points := [start] } d2

/-- RequestBall::isFinished. -/
def isFinished (b : RequestBall) : Prop :=
  b.has_bounced = true ∧ b.total_distance ≤ b.distance_travelled

/-- RequestBall::getProgress computes `distance_travelled / total_distance`
with no guard on the divisor; the IEEE division by a zero `total_distance`
(a non-finite result, NaN for the fresh degenerate ball) is made explicit
here as `none`. -/
noncomputable def getProgress (b : RequestBall) : Option ℝ :=
  if b.total_distance = 0 then none
  else some (b.distance_travelled / b.total_distance)

/-- The while loop of RequestBall::animate: starting from waypoint index
`pointno` and accumulated length `len`, advance while the next segment ends
strictly before `distance_travelled`; the fuel starts at `nolines` so the
loop stops at `pointno = nolines` exactly as the C++ bound does. -/
noncomputable def walkLoop (ll : List ℝ) (d : ℝ) :
    ℕ → ℕ → ℝ → ℕ × ℝ
  | 0, pointno, len => (pointno, len)
  | fuel + 1, pointno, len =>
    if len + ll.getD pointno 0 < d then
      walkLoop ll d fuel (pointno + 1) (len + ll.getD pointno 0)
    else (pointno, len)

/-- RequestBall::animate: accumulate `dt * pitch_speed * width` into
`distance_travelled`; past the end of the path trigger the bounce (once) and
leave the position untouched; otherwise locate the bracketing segment and
linearly interpolate the position inside it. -/
noncomputable def animate (cfg : Config) (dt : ℝ) (b : RequestBall) :
    RequestBall :=
  let d2 := b.distance_travelled + dt * cfg.pitch_speed * cfg.width
  let b1 := { b with distance_travelled := d2 }
  if d2 ≥ b.total_distance then
    if b.has_bounced = true then b1 else bounce cfg b1
  else
    let nolines := b.points.length - 1
    let pr := walkLoop b.line_lengths d2 nolines 0 0
    if pr.1 ≥ nolines then
      if b.has_bounced = true then b1 else bounce cfg b1
    else
      let p0 := b.points.getD pr.1 ⟨0, 0⟩
      let p1 := b.points.getD (pr.1 + 1) ⟨0, 0⟩
      let linepos := (d2 - pr.2) / b.line_lengths.getD pr.1 0
      { b1 with
        pos := ⟨p0.x + (p1.x - p0.x) * linepos, p0.y + (p1.y - p0.y) * linepos⟩ }

/-- Relation `Evolves cfg a b`: state `b` is obtained from state `a` by a (possibly
empty) sequence of the engine's mutating operations. -/
inductive Evolves (cfg : Config) : RequestBall → RequestBall → Prop
  | refl (b : RequestBall) : Evolves cfg b b
  | step_retarget {a b : RequestBall} (h : Evolves cfg a b) (x : ℝ) :
      Evolves cfg a (changeDestX cfg b x)
  | step_bounce {a b : RequestBall} (h : Evolves cfg a b) :
      Evolves cfg a (bounce cfg b)
  | step_animate {a b : RequestBall} (h : Evolves cfg a b) (dt : ℝ) :
      Evolves cfg a (animate cfg dt b)

/-- The path representation invariant: one more waypoint than segment
lengths, each recorded length is the Euclidean distance of its waypoint
pair, and `total_distance` is the sum of the recorded lengths. -/
def pathInv (b : RequestBall) : Prop :=
  b.points.length = b.line_lengths.length + 1 ∧
  (∀ i, i < b.line_lengths.length →
    b.line_lengths.getD i 0 =
      vlength (vsub (b.points.getD (i + 1) ⟨0, 0⟩) (b.points.getD i ⟨0, 0⟩))) ∧
  b.total_distance = b.line_lengths.sum

/-- Shared concrete configuration: 800×600 display, pitch speed 1/16
(so one unit of `dt` advances the distance by 50). -/
noncomputable def cfg0 : Config := ⟨800, 600, 1 / 16⟩

/-- The fresh horizontal-path ball, as produced by
`mkRequestBall 1 true ⟨0,300⟩ ⟨400,300⟩`. -/
noncomputable def ballA0 : RequestBall :=
  ⟨⟨0, 300⟩, ⟨400, 300⟩, ⟨1, 0⟩, false, false, 0, 400,
    [⟨0, 300⟩, ⟨400, 300⟩], [400], ⟨5 / 2, 5 / 2⟩⟩

/-- A ball mid-flight on a horizontal path, as produced by
`animate cfg0 1 (mkRequestBall 1 true ⟨0,300⟩ ⟨400,300⟩)`. -/
noncomputable def ballA1 : RequestBall :=
  ⟨⟨50, 300⟩, ⟨400, 300⟩, ⟨1, 0⟩, false, false, 50, 400,
    [⟨0, 300⟩, ⟨400, 300⟩], [400], ⟨5 / 2, 5 / 2⟩⟩

/-- The horizontal-path ball right after its bounce tick, as produced by
`animate cfg0 8 ballA1`: counters reset against the new exit path. -/
noncomputable def ballA2 : RequestBall :=
  ⟨⟨50, 300⟩, ⟨400, 300⟩, ⟨-1, 0⟩, true, false, 0, 50,
    [⟨50, 300⟩, ⟨0, 300⟩], [50], ⟨5 / 2, 5 / 2⟩⟩

/-- The steep terminal-event ball, as produced by
`mkRequestBall 1 false ⟨10,300⟩ ⟨13,304⟩` (direction (3/5, 4/5)). -/
noncomputable def ballS : RequestBall :=
  ⟨⟨10, 300⟩, ⟨13, 304⟩, ⟨3 / 5, 4 / 5⟩, false, true, 0, 5,
    [⟨10, 300⟩, ⟨13, 304⟩], [5], ⟨5 / 2, 5 / 2⟩⟩

/-- The steep terminal-event ball after its bounce: it reflects off the
bottom inset (y = 597.5) and its exit waypoint is far above the top of the
display (y = -475/3). -/
noncomputable def ballS2 : RequestBall :=
  ⟨⟨10, 300⟩, ⟨13, 304⟩, ⟨3 / 5, 4 / 5⟩, true, true, 0, 3950 / 3,
    [⟨10, 300⟩, ⟨1865 / 8, 1195 / 2⟩, ⟨800, -475 / 3⟩],
    [2975 / 8, 22675 / 24], ⟨5 / 2, 5 / 2⟩⟩

/-- An already-bounced ball on its exit path (total distance 50, distance
travelled 60, so it is finished). -/
noncomputable def ballB : RequestBall :=
  ⟨⟨50, 300⟩, ⟨400, 300⟩, ⟨-1, 0⟩, true, false, 60, 50,
    [⟨50, 300⟩, ⟨0, 300⟩], [50], ⟨5 / 2, 5 / 2⟩⟩

lemma vlength_nonneg (v : Vec2) : 0 ≤ vlength v := Real.sqrt_nonneg _

lemma vlength_eval {x y r : ℝ} (hr : 0 ≤ r) (h : x ^ 2 + y ^ 2 = r ^ 2) :
    vlength ⟨x, y⟩ = r := by
  rw [vlength]
  show Real.sqrt (x ^ 2 + y ^ 2) = r
  rw [h, Real.sqrt_sq hr]

lemma vlength_vsub_comm (a b : Vec2) :
    vlength (vsub a b) = vlength (vsub b a) := by
  simp only [vlength, vsub]
  ring_nf

lemma addPoint_pos (b : RequestBall) (p : Vec2) : (addPoint b p).pos = b.pos := rfl

lemma addPoint_dir (b : RequestBall) (p : Vec2) : (addPoint b p).dir = b.dir := rfl

lemma addPoint_dest (b : RequestBall) (p : Vec2) : (addPoint b p).dest = b.dest := rfl

lemma addPoint_has_bounced (b : RequestBall) (p : Vec2) :
    (addPoint b p).has_bounced = b.has_bounced := rfl

lemma addPoint_no_bounce (b : RequestBall) (p : Vec2) :
    (addPoint b p).no_bounce = b.no_bounce := rfl

lemma addPoint_offset (b : RequestBall) (p : Vec2) :
    (addPoint b p).offset = b.offset := rfl

lemma addPoint_distance_travelled (b : RequestBall) (p : Vec2) :
    (addPoint b p).distance_travelled = b.distance_travelled := rfl

lemma addPoint_points (b : RequestBall) (p : Vec2) :
    (addPoint b p).points = b.points ++ [p] := rfl

lemma addPoint_line_lengths (b : RequestBall) (p : Vec2) :
    (addPoint b p).line_lengths =
      b.line_lengths ++ [vlength (vsub (b.points.getLastD ⟨0, 0⟩) p)] := rfl

lemma addPoint_total_distance (b : RequestBall) (p : Vec2) :
    (addPoint b p).total_distance =
      b.total_distance + vlength (vsub (b.points.getLastD ⟨0, 0⟩) p) := rfl

lemma project_pos (cfg : Config) (b : RequestBall) :
    (project cfg b).pos = b.pos := by
  unfold project
  split <;> rfl

lemma project_dir (cfg : Config) (b : RequestBall) :
    (project cfg b).dir = projectDir b := by
  unfold project
  split <;> rfl

lemma project_dest (cfg : Config) (b : RequestBall) :
    (project cfg b).dest = b.dest := by
  unfold project
  split <;> rfl

lemma project_offset (cfg : Config) (b : RequestBall) :
    (project cfg b).offset = b.offset := by
  unfold project
  split <;> rfl

lemma project_no_bounce (cfg : Config) (b : RequestBall) :
    (project cfg b).no_bounce = b.no_bounce := by
  unfold project
  split <;> rfl

lemma project_has_bounced (cfg : Config) (b : RequestBall) :
    (project cfg b).has_bounced = b.has_bounced := by
  unfold project
  split <;> rfl

lemma project_distance_travelled (cfg : Config) (b : RequestBall) :
    (project cfg b).distance_travelled = 0 := by
  unfold project
  split <;> rfl

lemma project_points (cfg : Config) (b : RequestBall) :
    (project cfg b).points =
      if projectExitY cfg b < b.offset.y ∨ projectExitY cfg b > cfg.height - b.offset.y
      then [b.pos, ⟨projectIntersectX cfg b, projectIntersectY cfg b⟩,
            ⟨projectTargetX cfg b, projectExitY2 cfg b⟩]
      else [b.pos, ⟨projectTargetX cfg b, projectExitY cfg b⟩] := by
  unfold project
  split <;> rfl

lemma bounce_has_bounced (cfg : Config) (b : RequestBall) :
    (bounce cfg b).has_bounced = true := by
  unfold bounce
  split
  · assumption
  · rfl

lemma bounce_of_bounced {cfg : Config} {b : RequestBall}
    (h : b.has_bounced = true) : bounce cfg b = b := by
  unfold bounce
  rw [if_pos h]

lemma bounce_pos (cfg : Config) (b : RequestBall) :
    (bounce cfg b).pos = b.pos := by
  unfold bounce
  split
  · rfl
  · show (project cfg b).pos = b.pos
    exact project_pos cfg b

lemma changeDestX_of_bounced {cfg : Config} {b : RequestBall} (x : ℝ)
    (h : b.has_bounced = true) : changeDestX cfg b x = b := by
  unfold changeDestX
  rw [if_pos h]

lemma sqrt_eval {a r : ℝ} (hr : 0 ≤ r) (h : a = r ^ 2) : Real.sqrt a = r := by
  rw [h, Real.sqrt_sq hr]

lemma mkS_eval : mkRequestBall 1 false ⟨10, 300⟩ ⟨13, 304⟩ = ballS := by
  unfold mkRequestBall addPoint
  simp only [vnormalize, vsub, vlength, List.getLastD]
  norm_num [Real.log_one, ballS]
  rw [show (25 : ℝ) = 5 ^ 2 by norm_num,
    Real.sqrt_sq (by norm_num : (0:ℝ) ≤ 5)]
  norm_num

lemma bounceS_eval : bounce cfg0 ballS = ballS2 := by
  unfold bounce project addPoint
  norm_num [ballS, ballS2, cfg0, projectDir, projectTargetX, projectSlope,
    projectExitY, projectIntersectY, projectIntersectX, projectExitY2,
    vsub, vlength, List.getLastD]
  have h1 : Real.sqrt 8850625 = 2975 := sqrt_eval (by norm_num) (by norm_num)
  have h2 : Real.sqrt 64 = 8 := sqrt_eval (by norm_num) (by norm_num)
  have h3 : Real.sqrt 514155625 = 22675 := sqrt_eval (by norm_num) (by norm_num)
  have h4 : Real.sqrt 576 = 24 := sqrt_eval (by norm_num) (by norm_num)
  rw [h1, h2, h3, h4]
  norm_num

lemma getLastD_eq_getD {α : Type} (l : List α) (d : α) :
    l.getLastD d = l.getD (l.length - 1) d := by
  rw [List.getLastD_eq_getLast?, List.getLast?_eq_getElem?, List.getD_eq_getD_get?,
    List.get?_eq_getElem?]

lemma pathInv_addPoint {b : RequestBall} (h : pathInv b) (p : Vec2) :
    pathInv (addPoint b p) := by
  obtain ⟨hlen, hseg, hsum⟩ := h
  refine ⟨?_, ?_, ?_⟩
  · simp [addPoint_points, addPoint_line_lengths, hlen]
  · intro i hi
    rw [addPoint_line_lengths] at hi
    simp only [List.length_append, List.length_cons, List.length_nil] at hi
    rcases Nat.lt_succ_iff_lt_or_eq.mp (by omega : i < b.line_lengths.length + 1)
      with hi' | hi'
    · rw [addPoint_line_lengths, addPoint_points,
        List.getD_append _ _ _ _ hi',
        List.getD_append _ _ _ _ (by omega : i + 1 < b.points.length),
        List.getD_append _ _ _ _ (by omega : i < b.points.length)]
      exact hseg i hi'
    · subst hi'
      rw [addPoint_line_lengths, addPoint_points,
        List.getD_append_right _ _ _ _ (le_refl _),
        List.getD_append_right _ _ _ _
          (by omega : b.points.length ≤ b.line_lengths.length + 1),
        List.getD_append _ _ _ _
          (by omega : b.line_lengths.length < b.points.length)]
      simp only [Nat.sub_self, List.getD_cons_zero, hlen,
        (by omega : b.line_lengths.length + 1 - b.points.length = 0)]
      rw [getLastD_eq_getD, hlen, Nat.add_sub_cancel]
      exact vlength_vsub_comm _ _
  · rw [addPoint_total_distance, addPoint_line_lengths, List.sum_append, hsum]
    simp

lemma pathInv_fresh (b : RequestBall) (hpts : b.points.length = 1)
    (hll : b.line_lengths = []) (ht : b.total_distance = 0) : pathInv b := by
  refine ⟨by simp [hpts, hll], ?_, by simp [hll, ht]⟩
  intro i hi
  rw [hll] at hi
  simp at hi

lemma pathInv_project (cfg : Config) (b : RequestBall) :
    pathInv (project cfg b) := by
  unfold project
  split
  · exact pathInv_addPoint (pathInv_addPoint (pathInv_fresh _ (by rfl) (by rfl) (by rfl)) _) _
  · exact pathInv_addPoint (pathInv_fresh _ (by rfl) (by rfl) (by rfl)) _

lemma pathInv_update_has_bounced {b : RequestBall} (h : pathInv b) (v : Bool) :
    pathInv { b with has_bounced := v } := h

lemma pathInv_update_distance {b : RequestBall} (h : pathInv b) (v : ℝ) :
    pathInv { b with distance_travelled := v } := h

lemma pathInv_of_fields {b c : RequestBall} (h : pathInv b)
    (hp : c.points = b.points) (hl : c.line_lengths = b.line_lengths)
    (ht : c.total_distance = b.total_distance) : pathInv c := by
  obtain ⟨h1, h2, h3⟩ := h
  exact ⟨by rw [hp, hl, h1], by rw [hp, hl]; exact h2, by rw [ht, hl, h3]⟩

lemma pathInv_bounce (cfg : Config) {b : RequestBall} (h : pathInv b) :
    pathInv (bounce cfg b) := by
  unfold bounce
  split
  · exact h
  · exact pathInv_update_has_bounced (pathInv_project cfg b) true

lemma pathInv_changeDestX (cfg : Config) {b : RequestBall} (h : pathInv b)
    (x : ℝ) : pathInv (changeDestX cfg b x) := by
  unfold changeDestX
  split
  · exact h
  · split
    · exact pathInv_bounce cfg h
    · exact pathInv_addPoint (pathInv_fresh _ (by rfl) (by rfl) (by rfl)) _

lemma pathInv_animate (cfg : Config) (dt : ℝ) {b : RequestBall}
    (h : pathInv b) : pathInv (animate cfg dt b) := by
  simp only [animate]
  split
  · split
    · exact pathInv_update_distance h _
    · exact pathInv_bounce cfg (pathInv_update_distance h _)
  · split
    · split
      · exact pathInv_update_distance h _
      · exact pathInv_bounce cfg (pathInv_update_distance h _)
    · exact pathInv_of_fields h rfl rfl rfl

lemma pathInv_mk (response_size : ℝ) (successful : Bool) (pos dest : Vec2) :
    pathInv (mkRequestBall response_size successful pos dest) := by
  unfold mkRequestBall
  exact pathInv_addPoint (pathInv_fresh _ (by rfl) (by rfl) (by rfl)) _

lemma pathInv_evolves {cfg : Config} {a b : RequestBall}
    (h : Evolves cfg a b) (ha : pathInv a) : pathInv b := by
  induction h with
  | refl => exact ha
  | step_retarget h x ih => exact pathInv_changeDestX cfg ih x
  | step_bounce h ih => exact pathInv_bounce cfg ih
  | step_animate h dt ih => exact pathInv_animate cfg dt ih

lemma animate_of_bounced {cfg : Config} {b : RequestBall} (dt : ℝ)
    (h : b.has_bounced = true) :
    (animate cfg dt b).has_bounced = true ∧
    (animate cfg dt b).total_distance = b.total_distance ∧
    (animate cfg dt b).distance_travelled =
      b.distance_travelled + dt * cfg.pitch_speed * cfg.width := by
  simp only [animate]
  split_ifs <;> simp_all

lemma evolves_bounced_mono {cfg : Config} {a b : RequestBall}
    (h : Evolves cfg a b) (ha : a.has_bounced = true) :
    b.has_bounced = true := by
  induction h with
  | refl => exact ha
  | step_retarget h x ih => rw [changeDestX_of_bounced x ih]; exact ih
  | step_bounce h ih => exact bounce_has_bounced _ _
  | step_animate h dt ih => exact (animate_of_bounced dt ih).1

lemma retarget_preBounce {cfg : Config} {b : RequestBall} {x : ℝ}
    (h : (changeDestX cfg b x).has_bounced = false) :
    b.has_bounced = false ∧
    (changeDestX cfg b x).points.getD 0 ⟨0, 0⟩ = b.points.getD 0 ⟨0, 0⟩ ∧
    (changeDestX cfg b x).dir = b.dir := by
  unfold changeDestX at h ⊢
  split_ifs at h ⊢ with h1 h2 <;>
    simp_all [addPoint, bounce_has_bounced, List.getD]

lemma animate_preBounce {cfg : Config} {b : RequestBall} {dt : ℝ}
    (h : (animate cfg dt b).has_bounced = false) :
    b.has_bounced = false ∧
    (animate cfg dt b).points.getD 0 ⟨0, 0⟩ = b.points.getD 0 ⟨0, 0⟩ ∧
    (animate cfg dt b).dir = b.dir := by
  simp only [animate] at h ⊢
  split_ifs at h ⊢ with h1 h2 h3 h4 <;>
    simp_all [bounce_has_bounced]

lemma evolves_preBounce {cfg : Config} {a b : RequestBall}
    (h : Evolves cfg a b) (hb : b.has_bounced = false) :
    a.has_bounced = false ∧
    b.points.getD 0 ⟨0, 0⟩ = a.points.getD 0 ⟨0, 0⟩ ∧ b.dir = a.dir := by
  induction h with
  | refl => exact ⟨hb, rfl, rfl⟩
  | step_retarget h x ih =>
    obtain ⟨h1, h2, h3⟩ := retarget_preBounce hb
    obtain ⟨g1, g2, g3⟩ := ih h1
    exact ⟨g1, h2.trans g2, h3.trans g3⟩
  | step_bounce h ih =>
    rw [bounce_has_bounced] at hb
    exact absurd hb (by simp)
  | step_animate h dt ih =>
    obtain ⟨h1, h2, h3⟩ := animate_preBounce hb
    obtain ⟨g1, g2, g3⟩ := ih h1
    exact ⟨g1, h2.trans g2, h3.trans g3⟩

lemma animA2_eval : animate cfg0 8 ballA1 = ballA2 := by
  unfold animate bounce project addPoint
  norm_num [ballA1, ballA2, cfg0, projectDir, projectTargetX, projectSlope,
    projectExitY, projectIntersectY, projectIntersectX, projectExitY2,
    vsub, vlength, List.getLastD]
  exact sqrt_eval (by norm_num) (by norm_num)

lemma animA1_eval : animate cfg0 1 ballA0 = ballA1 := by
  unfold animate walkLoop
  norm_num [ballA0, ballA1, cfg0, List.getD]

lemma mkA_eval : mkRequestBall 1 true ⟨0, 300⟩ ⟨400, 300⟩ = ballA0 := by
  unfold mkRequestBall addPoint
  simp only [vnormalize, vsub, vlength, List.getLastD]
  norm_num [Real.log_one, ballA0]
  rw [show (160000 : ℝ) = 400 ^ 2 by norm_num,
    Real.sqrt_sq (by norm_num : (0:ℝ) ≤ 400)]
  norm_num

lemma project_last_x (cfg : Config) (b : RequestBall) :
    ((project cfg b).points.getLastD ⟨0, 0⟩).x = projectTargetX cfg b := by
  rw [project_points]
  split <;> rfl

/-- C5: over a trajectory's lifetime `has_bounced` transitions false→true at
most once and never back: `bounce` always leaves it true, every subsequent
operation keeps it true, and a second bounce request is the identity (so the
path, `total_distance` and `distance_travelled` are left unchanged). -/
theorem C5_bounce_once (cfg : Config) (a b : RequestBall) :
    (bounce cfg a).has_bounced = true ∧
    (Evolves cfg a b → a.has_bounced = true → b.has_bounced = true) ∧
    (a.has_bounced = true → bounce cfg a = a) :=
  ⟨bounce_has_bounced cfg a,
   fun h ha => evolves_bounced_mono h ha,
   fun ha => bounce_of_bounced ha⟩

/-- C5 witness: a concrete already-bounced ball. -/
theorem C5_bounce_once_witness :
    (bounce cfg0 ballB).has_bounced = true ∧
    bounce cfg0 ballB = ballB ∧ ballB.has_bounced = true :=
  ⟨(C5_bounce_once cfg0 ballB ballB).1,
   (C5_bounce_once cfg0 ballB ballB).2.2 rfl,
   (C5_bounce_once cfg0 ballB ballB).2.1 (Evolves.refl _) rfl⟩

/-- C6: bounce projection of a terminal (no-bounce) event targets the right
display edge and keeps the horizontal direction component; otherwise the far
target x is 0 and the horizontal component is negated. -/
theorem C6_far_target (cfg : Config) (b : RequestBall) :
    (b.no_bounce = true →
      projectTargetX cfg b = cfg.width ∧
      (project cfg b).dir.x = b.dir.x ∧
      ((project cfg b).points.getLastD ⟨0, 0⟩).x = cfg.width) ∧
    (b.no_bounce = false →
      projectTargetX cfg b = 0 ∧
      (project cfg b).dir.x = -b.dir.x ∧
      ((project cfg b).points.getLastD ⟨0, 0⟩).x = 0) := by
  constructor
  · intro h
    have ht : projectTargetX cfg b = cfg.width := by
      unfold projectTargetX
      rw [if_pos h]
    refine ⟨ht, ?_, by rw [project_last_x, ht]⟩
    rw [project_dir]
    unfold projectDir
    rw [if_pos h]
  · intro h
    have ht : projectTargetX cfg b = 0 := by
      unfold projectTargetX
      rw [if_neg (by simp [h])]
    refine ⟨ht, ?_, by rw [project_last_x, ht]⟩
    rw [project_dir]
    unfold projectDir
    rw [if_neg (by simp [h])]

/-- C6 witness: the terminal steep ball targets the right edge with its
direction kept; the non-terminal horizontal ball targets x = 0. -/
theorem C6_far_target_witness :
    (projectTargetX cfg0 ballS = cfg0.width ∧
      (project cfg0 ballS).dir.x = ballS.dir.x ∧
      ((project cfg0 ballS).points.getLastD ⟨0, 0⟩).x = cfg0.width) ∧
    (projectTargetX cfg0 ballA0 = 0 ∧
      (project cfg0 ballA0).dir.x = -ballA0.dir.x ∧
      ((project cfg0 ballA0).points.getLastD ⟨0, 0⟩).x = 0) :=
  ⟨(C6_far_target cfg0 ballS).1 rfl, (C6_far_target cfg0 ballA0).2 rfl⟩

/-- C8: the progress query does not yield a defined sentinel on the
degenerate input origin = destination; the division is unguarded, so with
`total_distance = 0` the IEEE quotient 0/0 is NaN (modelled as `none`). -/
theorem C8_degenerate_progress :
    (mkRequestBall 1 true ⟨100, 100⟩ ⟨100, 100⟩).total_distance = 0 ∧
    getProgress (mkRequestBall 1 true ⟨100, 100⟩ ⟨100, 100⟩) = none := by
  have ht : (mkRequestBall 1 true ⟨100, 100⟩ ⟨100, 100⟩).total_distance = 0 := by
    unfold mkRequestBall
    rw [addPoint_total_distance]
    norm_num [vsub, vlength, List.getLastD]
  exact ⟨ht, by unfold getProgress; rw [if_pos ht]⟩

/-- C10: on any tick whose incremented distance reaches `total_distance`,
the position field is left unchanged — including the tick that triggers the
bounce projection — and for an already-bounced ball the distance keeps
accumulating while the position stays frozen. -/
theorem C10_position_frozen (cfg : Config) (b : RequestBall) (dt : ℝ)
    (h : b.total_distance ≤ b.distance_travelled + dt * cfg.pitch_speed * cfg.width) :
    (animate cfg dt b).pos = b.pos ∧
    (b.has_bounced = true →
      (animate cfg dt b).distance_travelled =
        b.distance_travelled + dt * cfg.pitch_speed * cfg.width) := by
  constructor
  · simp only [animate]
    rw [if_pos h]
    split
    · rfl
    · exact bounce_pos cfg _
  · intro hb
    exact (animate_of_bounced dt hb).2.2

/-- C10 witness: the finished ball `ballB` keeps its position while the
distance counter still accumulates. -/
theorem C10_position_frozen_witness :
    (animate cfg0 1 ballB).pos = ballB.pos ∧
    (animate cfg0 1 ballB).distance_travelled =
      ballB.distance_travelled + 1 * cfg0.pitch_speed * cfg0.width :=
  ⟨(C10_position_frozen cfg0 ballB 1 (by norm_num [ballB, cfg0])).1,
   (C10_position_frozen cfg0 ballB 1 (by norm_num [ballB, cfg0])).2 rfl⟩

/-- C3 (amended): bounce projection resets `distance_travelled` to 0, but
pre-bounce re-targeting does not — `changeDestX` rebuilds the path while
leaving `distance_travelled` unchanged. -/
theorem C3_distance_reset (cfg : Config) (b : RequestBall) (x : ℝ) :
    (project cfg b).distance_travelled = 0 ∧
    (b.has_bounced = false → b.pos.x < x →
      (changeDestX cfg b x).distance_travelled = b.distance_travelled) := by
  refine ⟨project_distance_travelled cfg b, fun hb hx => ?_⟩
  unfold changeDestX
  rw [if_neg (by simp [hb]), if_neg (not_le.mpr hx)]
  rw [addPoint_distance_travelled]

/-- C3 counterexample: after one tick the horizontal ball has travelled 50;
re-targeting to x = 600 rebuilds the path but leaves `distance_travelled` at
50, not 0. -/
theorem C3_counterexample :
    (changeDestX cfg0 (animate cfg0 1 (mkRequestBall 1 true ⟨0, 300⟩ ⟨400, 300⟩))
        600).distance_travelled = 50 ∧ (50 : ℝ) ≠ 0 := by
  rw [mkA_eval, animA1_eval]
  constructor
  · unfold changeDestX
    rw [if_neg (by simp [ballA1]), if_neg (by norm_num [ballA1])]
    rw [addPoint_distance_travelled]
    rfl
  · norm_num

/-- C3 witness: concrete instantiation of the amended claim at the
mid-flight ball. -/
theorem C3_distance_reset_witness :
    (project cfg0 ballA1).distance_travelled = 0 ∧
    (changeDestX cfg0 ballA1 600).distance_travelled = ballA1.distance_travelled :=
  ⟨(C3_distance_reset cfg0 ballA1 600).1,
   (C3_distance_reset cfg0 ballA1 600).2 rfl (by norm_num [ballA1])⟩

/-- C7 (amended): at a reflecting bounce the stored direction field's
vertical component is NOT mutated (project only negates its x component);
the continuation slope of the final waypoint is recomputed from a locally
reflected copy of the direction (y negated). -/
theorem C7_reflection (cfg : Config) (b : RequestBall) :
    (project cfg b).dir.y = b.dir.y ∧
    (projectExitY cfg b < b.offset.y ∨ projectExitY cfg b > cfg.height - b.offset.y →
      (project cfg b).points.getD 2 ⟨0, 0⟩ =
        ⟨projectTargetX cfg b, projectExitY2 cfg b⟩ ∧
      projectExitY2 cfg b =
        projectIntersectY cfg b +
          -(projectDir b).y / (projectDir b).x *
            (projectTargetX cfg b - projectIntersectX cfg b)) := by
  constructor
  · rw [project_dir]
    unfold projectDir
    split <;> rfl
  · intro hrefl
    refine ⟨?_, rfl⟩
    rw [project_points, if_pos hrefl]
    simp [List.getD]

/-- C7 counterexample: the steep ball reflects (3 waypoints) yet its stored
direction's y component is still 4/5, not the negation -4/5 the claim
requires. -/
theorem C7_counterexample :
    (bounce cfg0 (mkRequestBall 1 false ⟨10, 300⟩ ⟨13, 304⟩)).points.length = 3 ∧
    (bounce cfg0 (mkRequestBall 1 false ⟨10, 300⟩ ⟨13, 304⟩)).dir.y = 4 / 5 ∧
    (mkRequestBall 1 false ⟨10, 300⟩ ⟨13, 304⟩).dir.y = 4 / 5 ∧
    ((4 : ℝ) / 5) ≠ -(4 / 5) := by
  rw [mkS_eval, bounceS_eval]
  exact ⟨rfl, rfl, rfl, by norm_num⟩

/-- C7 witness: concrete instantiation of the amended claim at the steep
reflecting ball. -/
theorem C7_reflection_witness :
    (project cfg0 ballS).dir.y = ballS.dir.y ∧
    ((project cfg0 ballS).points.getD 2 ⟨0, 0⟩ =
        ⟨projectTargetX cfg0 ballS, projectExitY2 cfg0 ballS⟩ ∧
      projectExitY2 cfg0 ballS =
        projectIntersectY cfg0 ballS +
          -(projectDir ballS).y / (projectDir ballS).x *
            (projectTargetX cfg0 ballS - projectIntersectX cfg0 ballS)) :=
  ⟨(C7_reflection cfg0 ballS).1,
   (C7_reflection cfg0 ballS).2 (by
     right
     norm_num [projectExitY, projectSlope, projectDir, projectTargetX, ballS, cfg0])⟩

/-- C1 (amended): bounce projection always yields a path starting at the
current position with exactly 2 waypoints (one appended) when the straight
extrapolation stays inside the vertical insets, and exactly 3 otherwise; in
the reflecting case the intermediate waypoint sits exactly on the crossed
bound (hence inside the insets whenever they are non-degenerate), but the
final waypoint's y is NOT guaranteed to lie within the insets. -/
theorem C1_path_shape (cfg : Config) (b : RequestBall) :
    (project cfg b).points.getD 0 ⟨0, 0⟩ = b.pos ∧
    (¬(projectExitY cfg b < b.offset.y ∨ projectExitY cfg b > cfg.height - b.offset.y) →
      (project cfg b).points = [b.pos, ⟨projectTargetX cfg b, projectExitY cfg b⟩]) ∧
    ((projectExitY cfg b < b.offset.y ∨ projectExitY cfg b > cfg.height - b.offset.y) →
      (project cfg b).points.length = 3 ∧
      ((project cfg b).points.getD 1 ⟨0, 0⟩).y = projectIntersectY cfg b ∧
      (2 * b.offset.y ≤ cfg.height →
        b.offset.y ≤ ((project cfg b).points.getD 1 ⟨0, 0⟩).y ∧
        ((project cfg b).points.getD 1 ⟨0, 0⟩).y ≤ cfg.height - b.offset.y)) := by
  refine ⟨?_, ?_, ?_⟩
  · rw [project_points]
    split <;> simp [List.getD]
  · intro h
    rw [project_points, if_neg h]
  · intro h
    rw [project_points, if_pos h]
    refine ⟨rfl, by simp [List.getD], fun hh => ?_⟩
    have hy : (([b.pos, ⟨projectIntersectX cfg b, projectIntersectY cfg b⟩,
        ⟨projectTargetX cfg b, projectExitY2 cfg b⟩] : List Vec2).getD 1 ⟨0, 0⟩).y =
        projectIntersectY cfg b := by simp [List.getD]
    rw [hy]
    unfold projectIntersectY
    split
    · exact ⟨le_refl _, by linarith⟩
    · exact ⟨by linarith, le_refl _⟩

/-- C1 counterexample: the steep terminal ball reflects (3 waypoints) but
its final waypoint has y = -475/3, far outside
[half_extent.y, display_height - half_extent.y]. -/
theorem C1_counterexample :
    (bounce cfg0 (mkRequestBall 1 false ⟨10, 300⟩ ⟨13, 304⟩)).points.length = 3 ∧
    ((bounce cfg0 (mkRequestBall 1 false ⟨10, 300⟩ ⟨13, 304⟩)).points.getD 2
        ⟨0, 0⟩).y <
      (bounce cfg0 (mkRequestBall 1 false ⟨10, 300⟩ ⟨13, 304⟩)).offset.y := by
  rw [mkS_eval, bounceS_eval]
  exact ⟨rfl, by norm_num [ballS2, List.getD]⟩

/-- C1 witness: concrete instantiation of the amended claim at the steep
reflecting ball. -/
theorem C1_path_shape_witness :
    (project cfg0 ballS).points.length = 3 ∧
    ((project cfg0 ballS).points.getD 1 ⟨0, 0⟩).y = projectIntersectY cfg0 ballS ∧
    (ballS.offset.y ≤ ((project cfg0 ballS).points.getD 1 ⟨0, 0⟩).y ∧
      ((project cfg0 ballS).points.getD 1 ⟨0, 0⟩).y ≤ cfg0.height - ballS.offset.y) := by
  have hrefl : projectExitY cfg0 ballS < ballS.offset.y ∨
      projectExitY cfg0 ballS > cfg0.height - ballS.offset.y := by
    right
    norm_num [projectExitY, projectSlope, projectDir, projectTargetX, ballS, cfg0]
  obtain ⟨h1, h2, h3⟩ := (C1_path_shape cfg0 ballS).2.2 hrefl
  exact ⟨h1, h2, h3 (by norm_num [ballS, cfg0])⟩

/-- C4 (amended): once `has_bounced` holds (the path is no longer rebuilt)
and the total distance is positive, progress is monotonically non-decreasing
under ticks with non-negative dt, speed and width; when the finished
predicate holds, progress is at least 1 (it does not converge to exactly 1:
the distance counter keeps accumulating). Progress is NOT monotone across
the tick that triggers the bounce projection (see the counterexample). -/
theorem C4_progress_monotone (cfg : Config) (b : RequestBall) (dt : ℝ)
    (hdt : 0 ≤ dt) (hs : 0 ≤ cfg.pitch_speed) (hw : 0 ≤ cfg.width)
    (hb : b.has_bounced = true) (ht : 0 < b.total_distance) :
    (∃ p q, getProgress b = some p ∧ getProgress (animate cfg dt b) = some q ∧
      p ≤ q) ∧
    (isFinished b → ∃ p, getProgress b = some p ∧ 1 ≤ p) := by
  obtain ⟨h1, h2, h3⟩ := @animate_of_bounced cfg b dt hb
  constructor
  · refine ⟨b.distance_travelled / b.total_distance,
      (animate cfg dt b).distance_travelled / (animate cfg dt b).total_distance,
      ?_, ?_, ?_⟩
    · unfold getProgress
      rw [if_neg (ne_of_gt ht)]
    · unfold getProgress
      rw [if_neg (by rw [h2]; exact ne_of_gt ht)]
    · rw [h2, h3]
      exact (div_le_div_iff_of_pos_right ht).mpr
        (le_add_of_nonneg_right (mul_nonneg (mul_nonneg hdt hs) hw))
  · rintro ⟨-, hfin⟩
    exact ⟨b.distance_travelled / b.total_distance,
      by unfold getProgress; rw [if_neg (ne_of_gt ht)],
      (one_le_div ht).mpr hfin⟩

/-- C4 counterexample: with non-negative dt throughout, progress is 1/8
after one tick, then the next tick triggers the bounce projection and
progress drops to 0 — refuting monotonicity. -/
theorem C4_counterexample :
    getProgress (animate cfg0 1 (mkRequestBall 1 true ⟨0, 300⟩ ⟨400, 300⟩)) =
      some (1 / 8) ∧
    getProgress (animate cfg0 8 (animate cfg0 1
      (mkRequestBall 1 true ⟨0, 300⟩ ⟨400, 300⟩))) = some 0 ∧
    ¬((1 : ℝ) / 8 ≤ 0) := by
  rw [mkA_eval, animA1_eval, animA2_eval]
  refine ⟨?_, ?_, by norm_num⟩
  · unfold getProgress
    rw [if_neg (by norm_num [ballA1])]
    norm_num [ballA1]
  · unfold getProgress
    rw [if_neg (by norm_num [ballA2])]
    norm_num [ballA2]

/-- C4 witness: concrete instantiation of the amended claim at the finished
ball `ballB`. -/
theorem C4_progress_monotone_witness :
    (∃ p q, getProgress ballB = some p ∧
      getProgress (animate cfg0 1 ballB) = some q ∧ p ≤ q) ∧
    (∃ p, getProgress ballB = some p ∧ 1 ≤ p) :=
  ⟨(C4_progress_monotone cfg0 ballB 1 (by norm_num) (by norm_num [cfg0])
      (by norm_num [cfg0]) rfl (by norm_num [ballB])).1,
   (C4_progress_monotone cfg0 ballB 1 (by norm_num) (by norm_num [cfg0])
      (by norm_num [cfg0]) rfl (by norm_num [ballB])).2
     ⟨rfl, by norm_num [ballB]⟩⟩

lemma mk_points_getD0 (bytes : ℝ) (succ : Bool) (p0 d0 : Vec2) :
    (mkRequestBall bytes succ p0 d0).points.getD 0 ⟨0, 0⟩ = p0 := by
  unfold mkRequestBall
  rw [addPoint_points]
  rfl

lemma mk_dir (bytes : ℝ) (succ : Bool) (p0 d0 : Vec2) :
    (mkRequestBall bytes succ p0 d0).dir = vnormalize (vsub d0 p0) := by
  unfold mkRequestBall
  rw [addPoint_dir]

/-- C2: `changeDestX` is a no-op after the bounce; a target at or behind the
current x triggers the bounce transition with the argument unused; otherwise
the path is rebuilt as exactly two waypoints — the original origin followed
by the point extrapolated at the new x with the slope of the original
origin-to-destination direction. -/
theorem C2_retarget (cfg : Config) (bytes : ℝ) (succ : Bool) (p0 d0 : Vec2)
    (b : RequestBall) (x : ℝ)
    (h : Evolves cfg (mkRequestBall bytes succ p0 d0) b) :
    (b.has_bounced = true → changeDestX cfg b x = b) ∧
    (b.has_bounced = false → x ≤ b.pos.x → changeDestX cfg b x = bounce cfg b) ∧
    (b.has_bounced = false → b.pos.x < x →
      (changeDestX cfg b x).points =
        [p0, ⟨x, p0.y + (vnormalize (vsub d0 p0)).y / (vnormalize (vsub d0 p0)).x *
          (x - p0.x)⟩]) := by
  refine ⟨fun hb => changeDestX_of_bounced x hb, fun hb hx => ?_, fun hb hx => ?_⟩
  · unfold changeDestX
    rw [if_neg (by simp [hb]), if_pos hx]
  · obtain ⟨-, hp0, hdir⟩ := evolves_preBounce h hb
    rw [mk_points_getD0] at hp0
    rw [mk_dir] at hdir
    unfold changeDestX
    rw [if_neg (by simp [hb]), if_neg (not_le.mpr hx)]
    rw [addPoint_points]
    rw [hp0, hdir]
    rfl

/-- C2 witness: re-targeting the fresh (0,0)→(3,4) ball to x = 6 rebuilds
the two-waypoint path from the origin with the original slope. -/
theorem C2_retarget_witness :
    (changeDestX cfg0 (mkRequestBall 1 true ⟨0, 0⟩ ⟨3, 4⟩) 6).points =
      [⟨0, 0⟩, ⟨6, 0 + (vnormalize (vsub ⟨3, 4⟩ ⟨0, 0⟩)).y /
        (vnormalize (vsub ⟨3, 4⟩ ⟨0, 0⟩)).x * (6 - 0)⟩] :=
  (C2_retarget cfg0 1 true ⟨0, 0⟩ ⟨3, 4⟩ _ 6 (Evolves.refl _)).2.2 rfl
    (by norm_num [mkRequestBall, addPoint])

/-- C9: every state reachable from construction by the engine's operations
satisfies the path invariant: one more waypoint than segment lengths, each
recorded segment length equal to the Euclidean distance of its waypoint
pair, and `total_distance` equal to the sum of the segment lengths. -/
theorem C9_path_invariant (cfg : Config) (bytes : ℝ) (succ : Bool)
    (p0 d0 : Vec2) (b : RequestBall)
    (h : Evolves cfg (mkRequestBall bytes succ p0 d0) b) : pathInv b :=
  pathInv_evolves h (pathInv_mk bytes succ p0 d0)

/-- C9 witness: the invariant holds for the freshly constructed
(0,0)→(3,4) ball. -/
theorem C9_path_invariant_witness : pathInv (mkRequestBall 1 true ⟨0, 0⟩ ⟨3, 4⟩) :=
  C9_path_invariant cfg0 1 true ⟨0, 0⟩ ⟨3, 4⟩ _ (Evolves.refl _)
